import Mathlib

/-!
Verification of the AptaTrans pipeline (src/aptatrans_pipeline.py).

This file gives a shallow embedding, in Lean 4, of the control logic of
the `AptaTransPipeline` class: the training controller with its
best-ROC-AUC checkpoint policy, the pretraining epoch loops with their
NaN guard, the secondary probability entry point `predict_proba`, the
explainability routine `get_interactionmap`, the recommendation loop
`recommend`, and the checkpoint load/save helpers.  Neural-network
forward passes, exponentials and disk stores are abstracted as explicit
functional parameters; list/rational arithmetic mirrors the tensor
arithmetic of the source.  Theorems below settle the specification
claims about these routines.
-/

namespace AptaTrans

/-! ## Training controller (`train` / `_train_epoch`, lines 201-259)

The controller state holds `best_auc` and `best_epoch` exactly as the
pipeline instance does.  The held-out ROC-AUC of each epoch is the
abstract input: one rational per epoch.  `trainEpochUpdate` embeds the
checkpoint decision of `_train_epoch` (lines 252-258): the flag it
returns records whether `_save_best_model` was called on that epoch. -/

structure TrainState where
  best_auc : ℚ
  best_epoch : ℕ
deriving DecidableEq, Repr

/-- Embeds the tail of `_train_epoch` (lines 252-258): compare the epoch's
held-out ROC-AUC with `self.best_auc`; on strict improvement update
`best_epoch`, `best_auc` and save a checkpoint (returned flag `true`). -/
def trainEpochUpdate (st : TrainState) (epoch : ℕ) (roc_auc : ℚ) : TrainState × Bool :=
  if st.best_auc < roc_auc then
    ({ best_auc := roc_auc, best_epoch := epoch }, true)
  else
    (st, false)

/-- Embeds the epoch loop of `train` (lines 208-209): epochs are numbered
from 1; returns the final state and the per-epoch checkpoint-save flags. -/
def trainLoop : TrainState → ℕ → List ℚ → TrainState × List Bool
  | st, _, [] => (st, [])
  | st, epoch, auc :: rest =>
    let p := trainEpochUpdate st epoch auc
    let q := trainLoop p.1 (epoch + 1) rest
    (q.1, p.2 :: q.2)

/-- Embeds `train` (lines 201-209): `best_auc` is initialised to 0 and
`best_epoch` to 0 before the epoch loop runs. -/
def train (aucs : List ℚ) : TrainState × List Bool :=
  trainLoop { best_auc := 0, best_epoch := 0 } 1 aucs

lemma trainEpochUpdate_best_le (st : TrainState) (e : ℕ) (a : ℚ) :
    st.best_auc ≤ (trainEpochUpdate st e a).1.best_auc := by
  unfold trainEpochUpdate
  split
  · exact le_of_lt (by assumption)
  · exact le_refl _

lemma trainEpochUpdate_flag (st : TrainState) (e : ℕ) (a : ℚ) :
    (trainEpochUpdate st e a).2 = decide (st.best_auc < a) := by
  unfold trainEpochUpdate
  split <;> simp_all

lemma trainLoop_best_le :
    ∀ (l : List ℚ) (st : TrainState) (e : ℕ),
      st.best_auc ≤ (trainLoop st e l).1.best_auc := by
  intro l
  induction l with
  | nil => intro st e; exact le_refl _
  | cons a rest ih =>
    intro st e
    exact le_trans (trainEpochUpdate_best_le st e a) (ih _ (e + 1))

lemma trainLoop_append :
    ∀ (l₁ l₂ : List ℚ) (st : TrainState) (e : ℕ),
      trainLoop st e (l₁ ++ l₂) =
        ((trainLoop (trainLoop st e l₁).1 (e + l₁.length) l₂).1,
         (trainLoop st e l₁).2 ++ (trainLoop (trainLoop st e l₁).1 (e + l₁.length) l₂).2) := by
  intro l₁
  induction l₁ with
  | nil => intro l₂ st e; simp [trainLoop]
  | cons a rest ih =>
    intro l₂ st e
    simp only [List.cons_append, trainLoop, List.length_cons, List.append_eq]
    rw [ih l₂ (trainEpochUpdate st e a).1 (e + 1)]
    have harith : e + 1 + rest.length = e + (rest.length + 1) := by ring
    rw [harith]

lemma trainLoop_flag_getD :
    ∀ (l : List ℚ) (st : TrainState) (e i : ℕ), i < l.length →
      (trainLoop st e l).2.getD i false =
        decide ((trainLoop st e (l.take i)).1.best_auc < l.getD i 0) := by
  intro l
  induction l with
  | nil => intro st e i hi; simp at hi
  | cons a rest ih =>
    intro st e i hi
    cases i with
    | zero =>
      simp [trainLoop, trainEpochUpdate_flag]
    | succ i =>
      have hi' : i < rest.length := by simpa using hi
      simp only [trainLoop, List.take_succ_cons, List.getD_cons_succ]
      exact ih _ (e + 1) i hi'

/-- C1: within one call to `train`, the tracked `best_auc` is
non-decreasing from epoch to epoch, and the checkpoint save of the five
sub-modules fires on epoch `i+1` if and only if that epoch's held-out
ROC-AUC is strictly greater than the `best_auc` accumulated over the
earlier epochs (initialised to 0); a tie does not save. -/
theorem C1_best_auc_monotone_and_save_iff (aucs : List ℚ) (i : ℕ) (hi : i < aucs.length) :
    (train (aucs.take i)).1.best_auc ≤ (train (aucs.take (i + 1))).1.best_auc ∧
    ((train aucs).2.getD i false = true ↔
      (train (aucs.take i)).1.best_auc < aucs.getD i 0) := by
  constructor
  · rw [train, train, List.take_succ, trainLoop_append]
    exact trainLoop_best_le _ _ _
  · rw [train, trainLoop_flag_getD aucs _ 1 i hi]
    simp [train]

/-- Witness for C1 at the concrete run with held-out AUCs
1/2, 1/2, 3/4: epoch 2 ties the best and hence does not save. -/
theorem C1_best_auc_monotone_and_save_iff_witness :
    (train ([ (1:ℚ)/2, 1/2, 3/4 ].take 1)).1.best_auc ≤
      (train ([ (1:ℚ)/2, 1/2, 3/4 ].take (1 + 1))).1.best_auc ∧
    ((train [ (1:ℚ)/2, 1/2, 3/4 ]).2.getD 1 false = true ↔
      (train ([ (1:ℚ)/2, 1/2, 3/4 ].take 1)).1.best_auc < [ (1:ℚ)/2, 1/2, 3/4 ].getD 1 0) :=
  C1_best_auc_monotone_and_save_iff [ (1:ℚ)/2, 1/2, 3/4 ] 1 (by decide)

/-! ## Pretraining epoch loops (`_run_epoch_pt_apta`, lines 339-370, and
`_run_epoch_pt_prot`, lines 393-424)

Loss values produced by the cross-entropy criteria are modelled by
`FVal`: a finite rational, positive infinity (cross-entropy losses are
non-negative, so negative infinity does not arise), or NaN.  Addition
and doubling follow IEEE semantics on these values.  Each batch is
abstracted to the pair of losses `(l_mlm, l_ssp)` its forward pass
produces; the epoch state tracks the running totals, the number of
optimizer steps taken, and the number of diagnostic dumps emitted by
`debug_forward_pass`. -/

inductive FVal where
  | fin : ℚ → FVal
  | inf : FVal
  | nan : FVal
deriving DecidableEq, Repr

/-- IEEE-style addition on loss values: NaN absorbs, then infinity. -/
def FVal.add : FVal → FVal → FVal
  | .nan, _ => .nan
  | _, .nan => .nan
  | .inf, _ => .inf
  | _, .inf => .inf
  | .fin a, .fin b => .fin (a + b)

/-- IEEE-style doubling, used for the factor 2 on the masked loss. -/
def FVal.mul2 : FVal → FVal
  | .nan => .nan
  | .inf => .inf
  | .fin a => .fin (2 * a)

/-- Predicate matching `torch.isnan` on a loss value. -/
def FVal.isnan : FVal → Bool
  | .nan => true
  | _ => false

/-- Predicate matching `torch.isfinite` on a loss value. -/
def FVal.isfinite : FVal → Bool
  | .fin _ => true
  | _ => false

/-- Embeds `loss = l_mlm * 2 + l_ssp` (lines 354 and 408). -/
def combinedLoss (l_mlm l_ssp : FVal) : FVal :=
  FVal.add (FVal.mul2 l_mlm) l_ssp

structure PTEpochState where
  total_loss : FVal
  total_mlm : FVal
  total_ssp : FVal
  optim_steps : ℕ
  dumps : ℕ
deriving DecidableEq, Repr

def initPTEpochState : PTEpochState :=
  { total_loss := .fin 0, total_mlm := .fin 0, total_ssp := .fin 0, optim_steps := 0, dumps := 0 }

/-- Embeds the shared batch body of the two pretraining epoch loops
(lines 343-369 for the aptamer loop, lines 397-423 for the protein loop,
identical up to which encoder and optimizer they use): compute the
combined loss; if `torch.isnan(loss)` holds, emit a diagnostic dump and
`continue`; otherwise step the optimizer when in training mode and
accumulate the three running totals. -/
def ptBatchStep (train_mode : Bool) (st : PTEpochState) (b : FVal × FVal) : PTEpochState :=
  let l_mlm := b.1
  let l_ssp := b.2
  let loss := combinedLoss l_mlm l_ssp
  if loss.isnan then
    { st with dumps := st.dumps + 1 }
  else
    { total_loss := st.total_loss.add loss,
      total_mlm := st.total_mlm.add l_mlm,
      total_ssp := st.total_ssp.add l_ssp,
      optim_steps := st.optim_steps + (if train_mode then 1 else 0),
      dumps := st.dumps }

/-- Embeds the batch loop of `_run_epoch_pt_apta` (lines 339-370). -/
def run_epoch_pt_apta (train_mode : Bool) (batches : List (FVal × FVal)) : PTEpochState :=
  batches.foldl (ptBatchStep train_mode) initPTEpochState

/-- Embeds the batch loop of `_run_epoch_pt_prot` (lines 393-424). -/
def run_epoch_pt_prot (train_mode : Bool) (batches : List (FVal × FVal)) : PTEpochState :=
  batches.foldl (ptBatchStep train_mode) initPTEpochState

/-- Marks one extra diagnostic dump on an epoch state, all else equal. -/
def addDump (st : PTEpochState) : PTEpochState :=
  { st with dumps := st.dumps + 1 }

lemma ptBatchStep_addDump (train_mode : Bool) (st : PTEpochState) (b : FVal × FVal) :
    ptBatchStep train_mode (addDump st) b = addDump (ptBatchStep train_mode st b) := by
  unfold ptBatchStep addDump
  by_cases h : (combinedLoss b.1 b.2).isnan = true <;> simp [h]

lemma foldl_ptBatchStep_addDump (train_mode : Bool) :
    ∀ (batches : List (FVal × FVal)) (st : PTEpochState),
      batches.foldl (ptBatchStep train_mode) (addDump st) =
        addDump (batches.foldl (ptBatchStep train_mode) st) := by
  intro batches
  induction batches with
  | nil => intro st; rfl
  | cons b rest ih =>
    intro st
    simp only [List.foldl_cons, ptBatchStep_addDump, ih]

/-- Counterexample to C2 as stated: the batch `(inf, 0)` has combined
loss `2 * inf + 0 = inf`, which is not finite, yet neither pretraining
loop skips it — an optimizer step is taken and the (now infinite) loss
is accumulated into the running totals. -/
theorem C2_nonfinite_not_skipped_counterexample :
    (combinedLoss FVal.inf (FVal.fin 0)).isfinite = false ∧
    run_epoch_pt_apta true [ (FVal.inf, FVal.fin 0) ] ≠ addDump initPTEpochState ∧
    (run_epoch_pt_apta true [ (FVal.inf, FVal.fin 0) ]).optim_steps = 1 ∧
    (run_epoch_pt_apta true [ (FVal.inf, FVal.fin 0) ]).total_loss = FVal.inf ∧
    (run_epoch_pt_prot true [ (FVal.inf, FVal.fin 0) ]).optim_steps = 1 := by
  refine ⟨rfl, ?_, rfl, rfl, rfl⟩
  intro h
  exact absurd (congrArg PTEpochState.optim_steps h) (by decide)

/-- C2 (amended): in both pretraining epoch loops, a batch whose
combined loss is NaN — rather than merely non-finite — is skipped
entirely: the epoch result equals the result of the same epoch without
that batch, except for one extra diagnostic dump; in particular no
optimizer step is taken for it and nothing is added to the running
totals.  A batch with an infinite but non-NaN combined loss is
processed normally. -/
theorem C2_nan_batch_skipped (train_mode : Bool) (pre post : List (FVal × FVal))
    (b : FVal × FVal) (hnan : (combinedLoss b.1 b.2).isnan = true) :
    run_epoch_pt_apta train_mode (pre ++ b :: post) =
      addDump (run_epoch_pt_apta train_mode (pre ++ post)) ∧
    run_epoch_pt_prot train_mode (pre ++ b :: post) =
      addDump (run_epoch_pt_prot train_mode (pre ++ post)) := by
  have key : ∀ st : PTEpochState,
      (pre ++ b :: post).foldl (ptBatchStep train_mode) st =
        addDump ((pre ++ post).foldl (ptBatchStep train_mode) st) := by
    intro st
    rw [List.foldl_append, List.foldl_append, List.foldl_cons]
    have hb : ptBatchStep train_mode (pre.foldl (ptBatchStep train_mode) st) b =
        addDump (pre.foldl (ptBatchStep train_mode) st) := by
      unfold ptBatchStep addDump
      simp only [hnan]
      rfl
    rw [hb, foldl_ptBatchStep_addDump]
  exact ⟨key initPTEpochState, key initPTEpochState⟩

/-- Witness for C2 at the concrete epoch `[(nan, 0), (1, 2)]` in
training mode: the NaN batch is dropped from all totals and step counts,
leaving one diagnostic dump. -/
theorem C2_nan_batch_skipped_witness :
    run_epoch_pt_apta true ([] ++ (FVal.nan, FVal.fin 0) :: [ (FVal.fin 1, FVal.fin 2) ]) =
      addDump (run_epoch_pt_apta true ([] ++ [ (FVal.fin 1, FVal.fin 2) ])) ∧
    run_epoch_pt_prot true ([] ++ (FVal.nan, FVal.fin 0) :: [ (FVal.fin 1, FVal.fin 2) ]) =
      addDump (run_epoch_pt_prot true ([] ++ [ (FVal.fin 1, FVal.fin 2) ])) :=
  C2_nan_batch_skipped true [] [ (FVal.fin 1, FVal.fin 2) ] (FVal.nan, FVal.fin 0) rfl

/-! ## Secondary scoring entry point (`predict_proba`, lines 303-311)

A raw saved interaction map is a 4-axis nested list
(batch x aptamer x protein x trailing).  `torch.unsqueeze(out, 1)`
inserts the channel axis, `torch.mean(out, 4)` averages the trailing
axis away, and the convolutional reduction (`self.conv` followed by
`self.predictor`) is abstracted as a function from the averaged map to
one probability per batch element. -/

/-- Mean of a list of rationals, matching `torch.mean` on one axis. -/
def meanQ (l : List ℚ) : ℚ := l.sum / l.length

/-- Embeds `torch.unsqueeze(out, 1)` (line 306): inserts a singleton
channel axis after the batch axis. -/
def unsqueeze1 (t : List (List (List (List ℚ)))) : List (List (List (List (List ℚ)))) :=
  t.map (fun x => [x])

/-- Embeds `torch.mean(out, 4)` (line 307): averages away axis 4, the
trailing axis of the raw saved map. -/
def meanDim4 (t : List (List (List (List (List ℚ))))) : List (List (List (List ℚ))) :=
  t.map (fun b => b.map (fun c => c.map (fun a => a.map (fun p => meanQ p))))

/-- Embeds `predict_proba` (lines 303-311): unsqueeze the channel axis,
average the trailing axis, reduce with the convolutional scorer
(abstracted as `convPredictor`), and wrap each scalar `o` into the
two-class row `[1 - o, o]`. -/
def predict_proba (convPredictor : List (List (List (List ℚ))) → List ℚ)
    (interaction_map : List (List (List (List ℚ)))) : List (List ℚ) :=
  let out := meanDim4 (unsqueeze1 interaction_map)
  let probs := convPredictor out
  probs.map (fun o => [ 1 - o, o ])

/-- C3: for every input interaction map, `predict_proba` feeds the
convolutional reduction the map with its trailing axis averaged away,
and every row of the result is the two-column vector `[1 - p, p]` for
the corresponding reduced probability `p`; each row therefore has two
columns summing exactly to 1. -/
theorem C3_predict_proba_rows (convPredictor : List (List (List (List ℚ))) → List ℚ)
    (interaction_map : List (List (List (List ℚ)))) (row : List ℚ)
    (hrow : row ∈ predict_proba convPredictor interaction_map) :
    (∃ p ∈ convPredictor (meanDim4 (unsqueeze1 interaction_map)), row = [ 1 - p, p ]) ∧
    row.length = 2 ∧ row.sum = 1 := by
  unfold predict_proba at hrow
  simp only [List.mem_map] at hrow
  obtain ⟨p, hp, hrow⟩ := hrow
  subst hrow
  refine ⟨⟨p, hp, rfl⟩, rfl, ?_⟩
  simp [List.sum_cons]

/-- Witness for C3 at a concrete one-element batch: the raw map
`[[[[2, 4]]]]` is averaged to `[[[3]]]`, the abstract reduction returns
probability 1/4, and the returned row is `[3/4, 1/4]`. -/
theorem C3_predict_proba_rows_witness :
    (∃ p ∈ (fun _ => [ (1:ℚ)/4 ]) (meanDim4 (unsqueeze1 [ [ [ [ (2:ℚ), 4 ] ] ] ])),
        [ (3:ℚ)/4, 1/4 ] = [ 1 - p, p ]) ∧
    ([ (3:ℚ)/4, 1/4 ] : List ℚ).length = 2 ∧ ([ (3:ℚ)/4, 1/4 ] : List ℚ).sum = 1 :=
  C3_predict_proba_rows (fun _ => [ (1:ℚ)/4 ]) [ [ [ [ (2:ℚ), 4 ] ] ] ] [ (3:ℚ)/4, 1/4 ]
    (by norm_num [predict_proba])

/-! ## Explainability routine (`get_interactionmap`, lines 468-552)

The padding-stripped interaction map of line 495 is embedded as a
function `Fin a → Fin p → ℚ` where `a = len(apta_tokens)` and
`p = len(prot_tokens)` count the non-padding tokens.  `torch.exp`
inside `softmax` is abstracted as a parameter `e : ℚ → ℚ`; for the real
exponential every value of `e` is strictly positive, which is the only
property the softmax facts use.  The local index lists `apta_indices`
and `prot_indices` computed for plotting are exposed as the second and
third components of the embedding's result. -/

/-- Embeds `im.softmax(dim=0)` (line 499): normalise along the aptamer
axis, i.e. within each protein column. -/
def softmaxD0 (e : ℚ → ℚ) {a p : ℕ} (m : Fin a → Fin p → ℚ) : Fin a → Fin p → ℚ :=
  fun i j => e (m i j) / (∑ k, e (m k j))

/-- Embeds `im.softmax(dim=1)` (line 505): normalise along the protein
axis, i.e. within each aptamer row. -/
def softmaxD1 (e : ℚ → ℚ) {a p : ℕ} (m : Fin a → Fin p → ℚ) : Fin a → Fin p → ℚ :=
  fun i j => e (m i j) / (∑ k, e (m i k))

/-- Embeds `im.sum(axis=1)` at one aptamer position (lines 500, 513). -/
def rowSum {a p : ℕ} (m : Fin a → Fin p → ℚ) (i : Fin a) : ℚ := ∑ j, m i j

/-- Embeds `im.sum(axis=0)` at one protein position (lines 506, 514). -/
def colSum {a p : ℕ} (m : Fin a → Fin p → ℚ) (j : Fin p) : ℚ := ∑ i, m i j

/-- View names matched by line 498 of the source. -/
def aptaViewNames : List String := [ "apta", "Apta", "Aptamer", "aptamer" ]

/-- View names matched by line 504 of the source. -/
def protViewNames : List String := [ "prot", "Prot", "Protein", "protein", "target", "Target" ]

/-- Embeds the test `view in ['apta', 'Apta', 'Aptamer', 'aptamer']`
(line 498); the default `view=None` matches neither branch. -/
def isAptaView : Option String → Bool
  | some v => decide (v ∈ aptaViewNames)
  | none => false

/-- Embeds the test `view in ['prot', ..., 'Target']` (line 504). -/
def isProtView : Option String → Bool
  | some v => decide (v ∈ protViewNames)
  | none => false

/-- Embeds `np.argsort` on a score vector: the indices
`0 .. len-1` sorted by ascending score. -/
def argsort (scores : List ℚ) : List ℕ :=
  (List.range scores.length).mergeSort (fun i j => decide (scores.getD i 0 ≤ scores.getD j 0))

/-- Embeds the Python slice `arr[-top_k:]`: for `top_k = 0` this is the
whole list (`arr[-0:]` is `arr[0:]`), otherwise the last
`min top_k len` elements. -/
def pythonTailSlice {α : Type} (k : ℕ) (l : List α) : List α :=
  if k = 0 then l else l.drop (l.length - k)

/-- Scores per aptamer position, `interaction_scores = im.sum(axis=1)`
as a list (lines 500, 513). -/
def rowSumsList {a p : ℕ} (m : Fin a → Fin p → ℚ) : List ℚ :=
  (List.finRange a).map (fun i => rowSum m i)

/-- Scores per protein position, `interaction_scores = im.sum(axis=0)`
as a list (lines 506, 514). -/
def colSumsList {a p : ℕ} (m : Fin a → Fin p → ℚ) : List ℚ :=
  (List.finRange p).map (fun j => colSum m j)

/-- Embeds the view-based logic of `get_interactionmap`
(lines 497-519) on the padding-stripped map `m`: the aptamer view
softmaxes along dim 0 and ranks aptamer positions by row sums while
listing every protein position; the protein view softmaxes along dim 1
and ranks protein positions by column sums while listing every aptamer
position; the combined/default view leaves the returned map raw and
ranks both axes from the two softmaxed copies.  Returns the matrix that
line 519 converts to numpy together with `apta_indices` and
`prot_indices`. -/
def get_interactionmap (e : ℚ → ℚ) {a p : ℕ} (m : Fin a → Fin p → ℚ)
    (view : Option String) (top_k : ℕ) :
    (Fin a → Fin p → ℚ) × List ℕ × List ℕ :=
  if isAptaView view then
    (softmaxD0 e m,
     pythonTailSlice top_k (argsort (rowSumsList (softmaxD0 e m))),
     List.range p)
  else if isProtView view then
    (softmaxD1 e m,
     List.range a,
     pythonTailSlice top_k (argsort (colSumsList (softmaxD1 e m))))
  else
    (m,
     pythonTailSlice top_k (argsort (rowSumsList (softmaxD0 e m))),
     pythonTailSlice top_k (argsort (colSumsList (softmaxD1 e m))))

lemma isAptaView_of_mem {v : String} (hv : v ∈ aptaViewNames) :
    isAptaView (some v) = true := by
  simp [isAptaView, hv]

lemma isProtView_of_mem {v : String} (hv : v ∈ protViewNames) :
    isProtView (some v) = true := by
  simp [isProtView, hv]

lemma isAptaView_of_mem_prot {v : String} (hv : v ∈ protViewNames) :
    isAptaView (some v) = false := by
  have h : v = "prot" ∨ v = "Prot" ∨ v = "Protein" ∨ v = "protein" ∨
      v = "target" ∨ v = "Target" := by
    simpa [protViewNames] using hv
  rcases h with h | h | h | h | h | h <;> subst h <;> decide

lemma colSum_softmaxD0 (e : ℚ → ℚ) (he : ∀ x, 0 < e x) {a p : ℕ} (ha : 0 < a)
    (m : Fin a → Fin p → ℚ) (j : Fin p) : colSum (softmaxD0 e m) j = 1 := by
  have hne : Nonempty (Fin a) := ⟨⟨0, ha⟩⟩
  have hpos : 0 < ∑ k, e (m k j) :=
    Finset.sum_pos (fun k _ => he (m k j)) Finset.univ_nonempty
  unfold colSum softmaxD0
  rw [← Finset.sum_div]
  exact div_self (ne_of_gt hpos)

lemma rowSum_softmaxD1 (e : ℚ → ℚ) (he : ∀ x, 0 < e x) {a p : ℕ} (hp : 0 < p)
    (m : Fin a → Fin p → ℚ) (i : Fin a) : rowSum (softmaxD1 e m) i = 1 := by
  have hne : Nonempty (Fin p) := ⟨⟨0, hp⟩⟩
  have hpos : 0 < ∑ k, e (m i k) :=
    Finset.sum_pos (fun k _ => he (m i k)) Finset.univ_nonempty
  unfold rowSum softmaxD1
  rw [← Finset.sum_div]
  exact div_self (ne_of_gt hpos)

/-- Counterexample to C4 as stated: it is not the case that the softmax
sits on the axis orthogonal to the view, with the normalized weights
summing to 1 across the *other* axis for each fixed *viewed* position.
On the all-zero 2 x 3 stripped map, for any exp-like positive function,
the aptamer view's returned matrix has first-row sum 3/2, not 1. -/
theorem C4_orthogonal_softmax_counterexample :
    ¬ (∀ (e : ℚ → ℚ), (∀ x, 0 < e x) →
        ∀ (a p : ℕ) (m : Fin a → Fin p → ℚ) (top_k : ℕ) (i : Fin a),
          rowSum ((get_interactionmap e m (some "apta") top_k).1) i = 1) := by
  intro h
  have h1 := h (fun _ => 1) (fun _ => one_pos) 2 3 (fun _ _ => 0) 1 0
  have hv : isAptaView (some "apta") = true := by decide
  have h2 : rowSum ((get_interactionmap (fun _ => (1:ℚ))
      (fun (_ : Fin 2) (_ : Fin 3) => (0:ℚ)) (some "apta") 1).1) 0 = 3 / 2 := by
    rw [get_interactionmap, hv]
    norm_num [rowSum, softmaxD0, Fin.sum_univ_succ]
  rw [h2] at h1
  norm_num at h1

/-- C4 (amended): the softmax is applied along the axis of the requested
view itself — over the aptamer axis (dim 0) for the aptamer view, over
the protein axis (dim 1) for the protein view — so that, for each fixed
position on the axis *opposite* to the view, the normalized interaction
weights across the viewed axis sum to 1. -/
theorem C4_softmax_on_view_axis (e : ℚ → ℚ) (he : ∀ x, 0 < e x) {a p : ℕ}
    (ha : 0 < a) (hp : 0 < p) (m : Fin a → Fin p → ℚ) (top_k : ℕ) :
    (∀ v ∈ aptaViewNames, ∀ j : Fin p,
        colSum ((get_interactionmap e m (some v) top_k).1) j = 1) ∧
    (∀ v ∈ protViewNames, ∀ i : Fin a,
        rowSum ((get_interactionmap e m (some v) top_k).1) i = 1) := by
  constructor
  · intro v hv j
    rw [get_interactionmap, isAptaView_of_mem hv]
    simpa using colSum_softmaxD0 e he ha m j
  · intro v hv i
    rw [get_interactionmap, isAptaView_of_mem_prot hv, isProtView_of_mem hv]
    simpa using rowSum_softmaxD1 e he hp m i

/-- Witness for the amended C4 on a 1 x 1 stripped map with the
constant-one exp abstraction. -/
theorem C4_softmax_on_view_axis_witness :
    colSum ((get_interactionmap (fun _ => (1:ℚ))
      (fun (_ : Fin 1) (_ : Fin 1) => (0:ℚ)) (some "aptamer") 1).1) 0 = 1 ∧
    rowSum ((get_interactionmap (fun _ => (1:ℚ))
      (fun (_ : Fin 1) (_ : Fin 1) => (0:ℚ)) (some "target") 1).1) 0 = 1 :=
  ⟨(C4_softmax_on_view_axis (fun _ => 1) (fun _ => one_pos) one_pos one_pos
      (fun _ _ => 0) 1).1 "aptamer" (by decide) 0,
   (C4_softmax_on_view_axis (fun _ => 1) (fun _ => one_pos) one_pos one_pos
      (fun _ _ => 0) 1).2 "target" (by decide) 0⟩

lemma argsort_length (scores : List ℚ) : (argsort scores).length = scores.length := by
  unfold argsort
  rw [List.length_mergeSort, List.length_range]

lemma pythonTailSlice_length {α : Type} (k : ℕ) (hk : 0 < k) (l : List α) :
    (pythonTailSlice k l).length = min k l.length := by
  unfold pythonTailSlice
  rw [if_neg (Nat.pos_iff_ne_zero.mp hk), List.length_drop]
  omega

lemma rowSumsList_length {a p : ℕ} (m : Fin a → Fin p → ℚ) :
    (rowSumsList m).length = a := by
  unfold rowSumsList
  rw [List.length_map, List.length_finRange]

lemma colSumsList_length {a p : ℕ} (m : Fin a → Fin p → ℚ) :
    (colSumsList m).length = p := by
  unfold colSumsList
  rw [List.length_map, List.length_finRange]

/-- Counterexample to C5 as stated: first, in the aptamer view the
protein index list is the full range of protein positions, so on a
1 x 2 stripped map with `top_k = 1` its length is 2, not
`min top_k len(prot_tokens) = 1`; second, with `top_k = 0` the Python
slice `arr[-0:]` keeps the whole array, so in the combined view on a
1 x 1 map the aptamer index list has length 1, not 0. -/
theorem C5_index_lengths_counterexample :
    ¬ (((get_interactionmap (fun _ => (1:ℚ)) (fun (_ : Fin 1) (_ : Fin 2) => (0:ℚ))
          (some "apta") 1).2.2).length = min 1 2) ∧
    ¬ (((get_interactionmap (fun _ => (1:ℚ)) (fun (_ : Fin 1) (_ : Fin 1) => (0:ℚ))
          none 0).2.1).length = min 0 1) := by
  constructor
  · have hv : isAptaView (some "apta") = true := by decide
    rw [get_interactionmap, hv]
    simp
  · rw [get_interactionmap]
    simp [isAptaView, isProtView, pythonTailSlice, argsort_length, rowSumsList_length]

/-- C5 (amended): for `top_k ≥ 1`, in the combined/default view both
index lists have length `min top_k` (number of non-padding tokens on
their axis); in the aptamer view only the aptamer index list obeys that
rule, while the protein index list enumerates all protein positions,
and symmetrically in the protein view. -/
theorem C5_index_lengths (e : ℚ → ℚ) {a p : ℕ} (m : Fin a → Fin p → ℚ)
    (top_k : ℕ) (hk : 0 < top_k) :
    (∀ v ∈ aptaViewNames,
        ((get_interactionmap e m (some v) top_k).2.1).length = min top_k a ∧
        ((get_interactionmap e m (some v) top_k).2.2).length = p) ∧
    (∀ v ∈ protViewNames,
        ((get_interactionmap e m (some v) top_k).2.1).length = a ∧
        ((get_interactionmap e m (some v) top_k).2.2).length = min top_k p) ∧
    (((get_interactionmap e m none top_k).2.1).length = min top_k a ∧
     ((get_interactionmap e m none top_k).2.2).length = min top_k p) := by
  refine ⟨?_, ?_, ?_⟩
  · intro v hv
    rw [get_interactionmap, isAptaView_of_mem hv]
    simp [pythonTailSlice_length top_k hk, argsort_length, rowSumsList_length]
  · intro v hv
    rw [get_interactionmap, isAptaView_of_mem_prot hv, isProtView_of_mem hv]
    simp [pythonTailSlice_length top_k hk, argsort_length, colSumsList_length]
  · rw [get_interactionmap]
    simp [isAptaView, isProtView, pythonTailSlice_length top_k hk, argsort_length,
      rowSumsList_length, colSumsList_length]

/-- Witness for the amended C5 on a 2 x 3 stripped map with
`top_k = 1`. -/
theorem C5_index_lengths_witness :
    (((get_interactionmap (fun _ => (1:ℚ)) (fun (_ : Fin 2) (_ : Fin 3) => (0:ℚ))
        (some "apta") 1).2.1).length = min 1 2 ∧
     ((get_interactionmap (fun _ => (1:ℚ)) (fun (_ : Fin 2) (_ : Fin 3) => (0:ℚ))
        (some "apta") 1).2.2).length = 3) ∧
    (((get_interactionmap (fun _ => (1:ℚ)) (fun (_ : Fin 2) (_ : Fin 3) => (0:ℚ))
        none 1).2.1).length = min 1 2 ∧
     ((get_interactionmap (fun _ => (1:ℚ)) (fun (_ : Fin 2) (_ : Fin 3) => (0:ℚ))
        none 1).2.2).length = min 1 3) :=
  ⟨(C5_index_lengths (fun _ => 1) (fun _ _ => 0) 1 one_pos).1 "apta" (by decide),
   (C5_index_lengths (fun _ => 1) (fun _ _ => 0) 1 one_pos).2.2⟩

/-- C9: the matrix returned by `get_interactionmap` differs by view:
any aptamer-view name yields the dim-0-softmaxed stripped map, any
protein-view name yields the dim-1-softmaxed stripped map, and the
default view yields the raw stripped map with no softmax applied; on a
concrete 1 x 2 map the aptamer-view matrix and the raw matrix indeed
differ. -/
theorem C9_view_matrix_routing (e : ℚ → ℚ) (he : ∀ x, 0 < e x) {a p : ℕ}
    (m : Fin a → Fin p → ℚ) (top_k : ℕ) :
    (∀ v ∈ aptaViewNames, (get_interactionmap e m (some v) top_k).1 = softmaxD0 e m) ∧
    (∀ v ∈ protViewNames, (get_interactionmap e m (some v) top_k).1 = softmaxD1 e m) ∧
    (get_interactionmap e m none top_k).1 = m ∧
    (∃ m₀ : Fin 1 → Fin 2 → ℚ,
      (get_interactionmap e m₀ (some "apta") top_k).1 ≠
        (get_interactionmap e m₀ none top_k).1) := by
  refine ⟨?_, ?_, ?_, ?_⟩
  · intro v hv
    rw [get_interactionmap, isAptaView_of_mem hv]
    simp
  · intro v hv
    rw [get_interactionmap, isAptaView_of_mem_prot hv, isProtView_of_mem hv]
    simp
  · rw [get_interactionmap]
    simp [isAptaView, isProtView]
  · refine ⟨fun _ j => (j : ℚ), ?_⟩
    have hv : isAptaView (some "apta") = true := by decide
    have h1 : (get_interactionmap e (fun (_ : Fin 1) (j : Fin 2) => (j : ℚ))
        (some "apta") top_k).1 = softmaxD0 e (fun (_ : Fin 1) (j : Fin 2) => (j : ℚ)) := by
      rw [get_interactionmap, hv]
      simp
    have h2 : (get_interactionmap e (fun (_ : Fin 1) (j : Fin 2) => (j : ℚ))
        none top_k).1 = fun (_ : Fin 1) (j : Fin 2) => (j : ℚ) := by
      rw [get_interactionmap]
      simp [isAptaView, isProtView]
    rw [h1, h2]
    intro hcontra
    have h00 := congrFun (congrFun hcontra 0) 0
    have hval : softmaxD0 e (fun (_ : Fin 1) (j : Fin 2) => (j : ℚ)) 0 0 = 1 := by
      unfold softmaxD0
      rw [Fin.sum_univ_one]
      exact div_self (ne_of_gt (he _))
    rw [hval] at h00
    norm_num at h00

/-- Witness for C9 with the constant-one exp abstraction on a 1 x 1
map. -/
theorem C9_view_matrix_routing_witness :
    (∀ v ∈ aptaViewNames,
        (get_interactionmap (fun _ => (1:ℚ)) (fun (_ : Fin 1) (_ : Fin 1) => (0:ℚ))
          (some v) 1).1 = softmaxD0 (fun _ => 1) (fun _ _ => 0)) ∧
    (∀ v ∈ protViewNames,
        (get_interactionmap (fun _ => (1:ℚ)) (fun (_ : Fin 1) (_ : Fin 1) => (0:ℚ))
          (some v) 1).1 = softmaxD1 (fun _ => 1) (fun _ _ => 0)) ∧
    (get_interactionmap (fun _ => (1:ℚ)) (fun (_ : Fin 1) (_ : Fin 1) => (0:ℚ))
        none 1).1 = (fun _ _ => 0) ∧
    (∃ m₀ : Fin 1 → Fin 2 → ℚ,
      (get_interactionmap (fun _ => (1:ℚ)) m₀ (some "apta") 1).1 ≠
        (get_interactionmap (fun _ => (1:ℚ)) m₀ none 1).1) :=
  C9_view_matrix_routing (fun _ => 1) (fun _ => one_pos) (fun _ _ => 0) 1

/-! ## Recommendation loop (`recommend`, lines 578-605, and
`_evaluate_candidate`, lines 612-625)

The external search procedure (`MCTS`) is abstracted by its state type
`S` together with the three operations the loop invokes on it:
`make_candidate` (guided by the classifier, which is fixed for the whole
call), `get_candidate`, and `reset`.  The wrapped classifier applied to
a candidate and the pre-encoded target protein is abstracted as
`score : String → ℚ`.  Each loop iteration appends
`results[i] = {candidate, score}`; `_evaluate_candidate` re-reads the
candidate, scores it, and resets the search state before the next
iteration. -/

/-- Embeds the body of `for i in range(n_aptamers)` (lines 597-601): run
`make_candidate`, read the candidate, re-score it and reset the search
state (`_evaluate_candidate`), then record `{candidate, score}` under
the current zero-based index. -/
def recommendLoop {S : Type} (make : S → S) (get : S → String) (resetState : S → S)
    (score : String → ℚ) : ℕ → ℕ → S → List (ℕ × String × ℚ)
  | 0, _, _ => []
  | n + 1, i, s =>
    let s1 := make s
    let candidate := get s1
    let sc := score (get s1)
    let s2 := resetState s1
    (i, candidate, sc) :: recommendLoop make get resetState score n (i + 1) s2

/-- Embeds `recommend` (lines 578-605) after checkpoint loading and
target encoding: the generation loop starting at index 0 from the
freshly constructed search state `s0`. -/
def recommend {S : Type} (make : S → S) (get : S → String) (resetState : S → S)
    (score : String → ℚ) (n_aptamers : ℕ) (s0 : S) : List (ℕ × String × ℚ) :=
  recommendLoop make get resetState score n_aptamers 0 s0

/-- Search state at the start of generation round `i`: the initial
state transformed by `i` rounds of make-then-reset. -/
def recommendStateAt {S : Type} (make resetState : S → S) : S → ℕ → S
  | s, 0 => s
  | s, i + 1 => recommendStateAt make resetState (resetState (make s)) i

lemma recommendLoop_map_fst {S : Type} (make : S → S) (get : S → String)
    (resetState : S → S) (score : String → ℚ) :
    ∀ (n i0 : ℕ) (s : S),
      (recommendLoop make get resetState score n i0 s).map Prod.fst =
        List.range' i0 n := by
  intro n
  induction n with
  | zero => intro i0 s; rfl
  | succ n ih =>
    intro i0 s
    rw [List.range'_succ]
    simp only [recommendLoop, List.map_cons, ih]

lemma recommendLoop_getD {S : Type} (make : S → S) (get : S → String)
    (resetState : S → S) (score : String → ℚ) :
    ∀ (n i0 : ℕ) (s : S) (i : ℕ), i < n →
      (recommendLoop make get resetState score n i0 s).getD i (0, "", 0) =
        (i0 + i, get (make (recommendStateAt make resetState s i)),
         score (get (make (recommendStateAt make resetState s i)))) := by
  intro n
  induction n with
  | zero => intro i0 s i hi; omega
  | succ n ih =>
    intro i0 s i hi
    cases i with
    | zero =>
      simp [recommendLoop, recommendStateAt]
    | succ i =>
      have hi' : i < n := by omega
      simp only [recommendLoop, List.getD_cons_succ, recommendStateAt]
      rw [ih (i0 + 1) (resetState (make s)) i hi']
      have harith : i0 + 1 + i = i0 + (i + 1) := by ring
      rw [harith]

lemma recommendStateAt_succ {S : Type} (make resetState : S → S) :
    ∀ (i : ℕ) (s : S),
      recommendStateAt make resetState s (i + 1) =
        resetState (make (recommendStateAt make resetState s i)) := by
  intro i
  induction i with
  | zero => intro s; rfl
  | succ i ih =>
    intro s
    rw [show recommendStateAt make resetState s (i + 1 + 1) =
        recommendStateAt make resetState (resetState (make s)) (i + 1) from rfl,
      ih (resetState (make s))]
    rfl

/-- C6: the generation loop of `recommend` runs exactly `n_aptamers`
iterations; the result maps the zero-based indices `0 .. n_aptamers - 1`,
in order, to `{candidate, score}` records where the score is the
classifier applied to that round's candidate; and round `i` starts from
the search state obtained by resetting after each of the `i` previous
rounds, so the search state is reset between consecutive candidates. -/
theorem C6_recommend_shape {S : Type} (make : S → S) (get : S → String)
    (resetState : S → S) (score : String → ℚ) (n_aptamers : ℕ) (s0 : S) :
    (recommend make get resetState score n_aptamers s0).map Prod.fst =
      List.range n_aptamers ∧
    (∀ i, i < n_aptamers →
      (recommend make get resetState score n_aptamers s0).getD i (0, "", 0) =
        (i, get (make (recommendStateAt make resetState s0 i)),
         score (get (make (recommendStateAt make resetState s0 i))))) ∧
    (∀ i, recommendStateAt make resetState s0 (i + 1) =
      resetState (make (recommendStateAt make resetState s0 i))) := by
  refine ⟨?_, ?_, ?_⟩
  · rw [recommend, recommendLoop_map_fst, List.range_eq_range']
  · intro i hi
    rw [recommend, recommendLoop_getD make get resetState score n_aptamers 0 s0 i hi]
    simp
  · intro i
    exact recommendStateAt_succ make resetState i s0

/-- Witness for C6 with a concrete search procedure on states `ℕ`
(make is successor, reset returns to 0) and two requested candidates. -/
theorem C6_recommend_shape_witness :
    (recommend Nat.succ toString (fun _ => 0) (fun _ => 1) 2 5).map Prod.fst =
      List.range 2 ∧
    (recommend Nat.succ toString (fun _ => 0) (fun _ => 1) 2 5).getD 1 (0, "", 0) =
      (1, toString (Nat.succ (recommendStateAt Nat.succ (fun _ => 0) 5 1)),
       (fun _ => (1:ℚ)) (toString (Nat.succ (recommendStateAt Nat.succ (fun _ => 0) 5 1)))) ∧
    recommendStateAt Nat.succ (fun _ => (0:ℕ)) 5 (0 + 1) =
      (fun _ => 0) (Nat.succ (recommendStateAt Nat.succ (fun _ => 0) 5 0)) :=
  ⟨(C6_recommend_shape Nat.succ toString (fun _ => 0) (fun _ => 1) 2 5).1,
   (C6_recommend_shape Nat.succ toString (fun _ => 0) (fun _ => 1) 2 5).2.1 1 (by decide),
   (C6_recommend_shape Nat.succ toString (fun _ => 0) (fun _ => 1) 2 5).2.2 0⟩

/-! ## Checkpoint loading (`_load_best_model`, lines 554-564, and
`_load_pretrained_models`, lines 138-145)

The parameter sets of the five scorer sub-modules form a `ScorerState`;
the on-disk bundle holds one optional parameter set per checkpoint file,
`none` meaning the file is absent.  `torch.load` on an absent file
raises `FileNotFoundError`; each loader wraps all its sequential
`load_state_dict` calls in a single `try` block whose handler only
logs, so execution stops at the first absent file with every earlier
load already applied, and the caller proceeds. -/

structure ScorerState (α : Type) where
  encoder_aptamer : α
  encoder_protein : α
  to_im : α
  conv : α
  predictor : α
deriving DecidableEq, Repr

structure BestBundle (α : Type) where
  encoder_apta_file : Option α
  encoder_prot_file : Option α
  to_im_file : Option α
  conv_file : Option α
  predictor_file : Option α
deriving DecidableEq, Repr

/-- Embeds `_load_best_model` (lines 554-564): load the five best-AUC
files in source order inside one `try`; on the first absent file the
`FileNotFoundError` handler logs and returns, keeping the loads already
performed and leaving the remaining modules untouched. -/
def load_best_model {α : Type} (files : BestBundle α) (st : ScorerState α) : ScorerState α :=
  match files.encoder_apta_file with
  | none => st
  | some a =>
    let st1 := { st with encoder_aptamer := a }
    match files.encoder_prot_file with
    | none => st1
    | some b =>
      let st2 := { st1 with encoder_protein := b }
      match files.to_im_file with
      | none => st2
      | some c =>
        let st3 := { st2 with to_im := c }
        match files.conv_file with
        | none => st3
        | some d =>
          let st4 := { st3 with conv := d }
          match files.predictor_file with
          | none => st4
          | some e => { st4 with predictor := e }

/-- Embeds `_load_pretrained_models` (lines 138-145): load the RNA
encoder file then the protein encoder file inside one `try`; the
`FileNotFoundError` handler only logs, so an absent first file keeps
both in-memory encoders while an absent second file keeps only the
protein encoder. -/
def load_pretrained_models {α : Type} (rna_file protein_file : Option α)
    (encoder_aptamer encoder_protein : α) : α × α :=
  match rna_file with
  | none => (encoder_aptamer, encoder_protein)
  | some a =>
    match protein_file with
    | none => (a, encoder_protein)
    | some b => (a, b)

/-- Counterexample to C7 as stated: with the best-AUC bundle holding
only the aptamer-encoder file (parameters 1) and every later file
absent, `_load_best_model` returns without raising but the in-memory
parameters are not unchanged — the aptamer encoder was already
overwritten before the missing file was hit. -/
theorem C7_partial_bundle_counterexample :
    (⟨some 1, none, none, none, none⟩ : BestBundle ℕ).encoder_prot_file = none ∧
    load_best_model (⟨some 1, none, none, none, none⟩ : BestBundle ℕ) ⟨0, 0, 0, 0, 0⟩ ≠
      ⟨0, 0, 0, 0, 0⟩ := by
  refine ⟨rfl, ?_⟩
  intro h
  exact absurd (congrArg ScorerState.encoder_aptamer h) (by decide)

/-- C7 (amended): neither checkpoint loader raises on an absent file.
When the first file of the bundle is absent all in-memory parameters
stay unchanged; when a later file is absent, the modules loaded before
it keep the newly loaded parameters and the remaining modules keep the
in-memory ones; the calling operation proceeds either way. -/
theorem C7_missing_checkpoint_semantics (α : Type) (st : ScorerState α)
    (files : BestBundle α) (ea ep : α) (rna_file protein_file : Option α) :
    (files.encoder_apta_file = none → load_best_model files st = st) ∧
    (∀ a, files.encoder_apta_file = some a → files.encoder_prot_file = none →
      load_best_model files st = { st with encoder_aptamer := a }) ∧
    (rna_file = none →
      load_pretrained_models rna_file protein_file ea ep = (ea, ep)) ∧
    (∀ a, rna_file = some a → protein_file = none →
      load_pretrained_models rna_file protein_file ea ep = (a, ep)) := by
  refine ⟨?_, ?_, ?_, ?_⟩
  · intro h
    unfold load_best_model
    rw [h]
  · intro a h1 h2
    unfold load_best_model
    rw [h1, h2]
  · intro h
    unfold load_pretrained_models
    rw [h]
  · intro a h1 h2
    unfold load_pretrained_models
    rw [h1, h2]

/-- Witness for the amended C7 on concrete bundles over ℕ parameter
sets. -/
theorem C7_missing_checkpoint_semantics_witness :
    load_best_model (⟨none, none, none, none, none⟩ : BestBundle ℕ) ⟨0, 0, 0, 0, 0⟩ =
      ⟨0, 0, 0, 0, 0⟩ ∧
    load_best_model (⟨some 1, none, none, none, none⟩ : BestBundle ℕ) ⟨0, 0, 0, 0, 0⟩ =
      ⟨1, 0, 0, 0, 0⟩ ∧
    load_pretrained_models (none : Option ℕ) none 7 8 = (7, 8) ∧
    load_pretrained_models (some 1 : Option ℕ) none 7 8 = (1, 8) :=
  ⟨(C7_missing_checkpoint_semantics ℕ ⟨0, 0, 0, 0, 0⟩ ⟨none, none, none, none, none⟩
      7 8 none none).1 rfl,
   (C7_missing_checkpoint_semantics ℕ ⟨0, 0, 0, 0, 0⟩ ⟨some 1, none, none, none, none⟩
      7 8 none none).2.1 1 rfl rfl,
   (C7_missing_checkpoint_semantics ℕ ⟨0, 0, 0, 0, 0⟩ ⟨none, none, none, none, none⟩
      7 8 none none).2.2.1 rfl,
   (C7_missing_checkpoint_semantics ℕ ⟨0, 0, 0, 0, 0⟩ ⟨none, none, none, none, none⟩
      7 8 (some 1) none).2.2.2 1 rfl rfl⟩

/-! ## Checkpoint saving (`_save_best_model`, lines 566-576, and the
pretraining saves at lines 335-337 and 389-391)

A save's I/O outcome is a value of `Except ε Unit`: `.ok ()` when the
`torch.save` calls succeed, `.error e` when one raises.  The fine-tune
path routes every save through `_save_best_model`, whose
`except Exception` handler logs and returns; the pretraining epoch
loops call `torch.save` directly with no handler. -/

/-- Embeds `_save_best_model` (lines 566-576): any exception from the
five `torch.save` calls is caught and logged; the returned flag records
whether the error branch printed.  The function never propagates an
error. -/
def save_best_model {ε : Type} (raw : Except ε Unit) : Except ε Bool :=
  match raw with
  | .ok _ => .ok false
  | .error _ => .ok true

/-- Embeds the comparison `test_loss < best_loss` with `best_loss`
initialised to `float('inf')`, modelled as `none` (lines 320, 335 and
379, 389). -/
def improvesBest (l : ℚ) : Option ℚ → Bool
  | none => true
  | some b => decide (l < b)

/-- Embeds the epoch loop of `pretrain_encoder_aptamer` /
`pretrain_encoder_protein` at the save boundary (lines 323-337 and
382-391): on an improving held-out loss the encoder is saved by a bare
`torch.save` with no surrounding try/except, so a save error propagates
out of the loop; otherwise the loop continues with the best loss
updated on improvement. -/
def pretrainSaveLoop {ε : Type} (raw : Except ε Unit) :
    List ℚ → Option ℚ → Except ε (Option ℚ)
  | [], best => .ok best
  | l :: rest, best =>
    if improvesBest l best then
      match raw with
      | .error e => .error e
      | .ok _ => pretrainSaveLoop raw rest (some l)
    else
      pretrainSaveLoop raw rest best

/-- Counterexample to C8 as stated: a failing save during pretraining
is not caught — the first improving epoch propagates the error and
aborts the pretraining run — whereas the same failing save routed
through `_save_best_model` is swallowed and merely logged. -/
theorem C8_pretrain_save_unguarded_counterexample :
    pretrainSaveLoop (Except.error "disk full") [ (1:ℚ) ] none =
      Except.error "disk full" ∧
    save_best_model (Except.error "disk full") = Except.ok true :=
  ⟨rfl, rfl⟩

/-- C8 (amended): checkpoint saves performed during fine-tune training
go through `_save_best_model`, which catches any I/O or serialization
error at the save boundary, logs it, and returns normally so the run
continues; the encoder saves inside the two pretraining epoch loops are
not guarded, so an error raised there propagates and aborts the
pretraining run at the first improving epoch. -/
theorem C8_save_boundary (ε : Type) (raw : Except ε Unit) (e : ε) (l : ℚ)
    (rest : List ℚ) (best : Option ℚ) (himp : improvesBest l best = true) :
    (∃ logged, save_best_model raw = .ok logged ∧
      (logged = true ↔ ∃ err, raw = .error err)) ∧
    pretrainSaveLoop (Except.error e) (l :: rest) best = Except.error e := by
  constructor
  · cases raw with
    | ok u => exact ⟨false, rfl, by simp⟩
    | error err => exact ⟨true, rfl, by simp⟩
  · unfold pretrainSaveLoop
    rw [himp]
    simp

/-- Witness for the amended C8 with a concrete failing save at the
first pretraining epoch. -/
theorem C8_save_boundary_witness :
    (∃ logged, save_best_model (Except.error "disk full") = .ok logged ∧
      (logged = true ↔ ∃ err, (Except.error "disk full" : Except String Unit) = .error err)) ∧
    pretrainSaveLoop (Except.error "disk full") ([ (1:ℚ) ] ++ []) none =
      Except.error "disk full" :=
  C8_save_boundary String (Except.error "disk full") "disk full" 1 [] none rfl

/-! ## Inference-path entry points (`inference`, lines 453-466;
`get_interactionmap`, lines 468-471; `recommend`, lines 578-580)

Each public inference-path entry point starts with
`self._load_best_model()` and then computes its output from the
pipeline's (possibly overwritten) parameters; the computation after
loading is abstracted as a function of the scorer state. -/

/-- Embeds the state effect of `inference` (lines 453-466): reload the
best bundle, then score with the resulting parameters. -/
def inference_entry {α : Type} (scoreFn : ScorerState α → ℚ)
    (files : BestBundle α) (st : ScorerState α) : ℚ × ScorerState α :=
  let st1 := load_best_model files st
  (scoreFn st1, st1)

/-- Embeds the state effect of `get_interactionmap` (lines 468-552):
reload the best bundle, then derive the interaction map and token data
(abstracted as `imFn`) from the resulting parameters. -/
def get_interactionmap_entry {α β : Type} (imFn : ScorerState α → β)
    (files : BestBundle α) (st : ScorerState α) : β × ScorerState α :=
  let st1 := load_best_model files st
  (imFn st1, st1)

/-- Embeds the state effect of `recommend` (lines 578-605): reload the
best bundle, then run the generation loop (abstracted as `recFn`) with
the resulting parameters. -/
def recommend_entry {α β : Type} (recFn : ScorerState α → β)
    (files : BestBundle α) (st : ScorerState α) : β × ScorerState α :=
  let st1 := load_best_model files st
  (recFn st1, st1)

/-- C10: each public inference-path entry point first reloads the
best-AUC bundle, so when every checkpoint file exists the pipeline's
in-memory parameters after the call are exactly the stored bundle —
whatever they were before — and the output is computed from the loaded
parameters, not the previous ones. -/
theorem C10_entry_points_reload (α : Type) (a b c d e : α) (st : ScorerState α)
    (scoreFn : ScorerState α → ℚ) (imFn recFn : ScorerState α → ℕ) :
    (inference_entry scoreFn ⟨some a, some b, some c, some d, some e⟩ st).2 =
      ⟨a, b, c, d, e⟩ ∧
    (inference_entry scoreFn ⟨some a, some b, some c, some d, some e⟩ st).1 =
      scoreFn ⟨a, b, c, d, e⟩ ∧
    (get_interactionmap_entry imFn ⟨some a, some b, some c, some d, some e⟩ st).2 =
      ⟨a, b, c, d, e⟩ ∧
    (get_interactionmap_entry imFn ⟨some a, some b, some c, some d, some e⟩ st).1 =
      imFn ⟨a, b, c, d, e⟩ ∧
    (recommend_entry recFn ⟨some a, some b, some c, some d, some e⟩ st).2 =
      ⟨a, b, c, d, e⟩ ∧
    (recommend_entry recFn ⟨some a, some b, some c, some d, some e⟩ st).1 =
      recFn ⟨a, b, c, d, e⟩ :=
  ⟨rfl, rfl, rfl, rfl, rfl, rfl⟩

end AptaTrans
